import Mathlib

/-!
# Verification of the download/reconciliation core

Shallow embedding of the configuration model, reconciliation engine and
paginated retrieval primitive of the repository, together with proofs of
the specification claims.

Source files embedded:
* `src/download/process/util.py` — `iterative_geo_api_retrieve` (pagination)
* `src/download/configure/validate/utils.py`, `validators.py` — validation
* `src/download/process/handlers.py` — `ArcgisGeomHandler.execute`
* `src/download/configure/config.py` — `Config` duplicate passes and lookup
* `src/download/downloader.py` — `Downloader`
-/

deriving instance DecidableEq for Except

namespace Download

/-! ## Pagination primitive (`src/download/process/util.py`)

`iterative_geo_api_retrieve(params, offset, url, max_retries)` loops over
pages.  Each HTTP request is answered by the upstream API; we model the
sequence of answers as a function `api : Nat → Resp` from the zero-based
count of requests issued so far to the response received.  A response is
either a transport failure (`get_response_from_url` returned
`(None, False)`) or a JSON body, which may or may not carry a
`"features"` field.  Features themselves are opaque; we use `Nat` ids. -/

abbrev Feature := Nat

/-- One answer of the upstream API to one `get_response_from_url` call:
a transport failure, or a JSON body whose optional `"features"` field
holds a list of features. -/
inductive Resp where
  | fail : Resp
  | ok : Option (List Feature) → Resp
deriving DecidableEq

/-- Outcome of the inner retry loop of `iterative_geo_api_retrieve` for one
page: a hard failure (transport error, or `"features"` missing on the last
allowed attempt — both `return None, False` in the source), or a page of
features. -/
inductive PageOutcome where
  | hardFail : PageOutcome
  | page : List Feature → PageOutcome
deriving DecidableEq

/-- The inner `for retry in range(1, max_retries + 1)` loop of
`iterative_geo_api_retrieve`: issue requests until a response carries a
`"features"` field, abort the whole call on a transport failure or when the
last attempt still lacks the field.  Returns the number of requests issued
together with the outcome.  `rc` is the number of requests issued before
this page.  (The source never runs with `max_retries = 0`; the `0` case is
a dead branch of the model.) -/
def fetchPage (api : Nat → Resp) : Nat → Nat → Nat × PageOutcome
  | 0, _ => (0, .hardFail)
  | retriesLeft + 1, rc =>
    match api rc with
    | .fail => (1, .hardFail)
    | .ok none =>
      if retriesLeft = 0 then (1, .hardFail)
      else
        let r := fetchPage api retriesLeft (rc + 1)
        (r.1 + 1, r.2)
    | .ok (some fs) => (1, .page fs)

/-- Result of the outer `while True` loop of `iterative_geo_api_retrieve`:
the collected non-empty pages (`raw_data` in the source; `none` when the
call failed), the status flag, and the `resultOffset` value carried by each
request issued, in order. -/
structure LoopRes where
  raw : Option (List (List Feature))
  status : Bool
  reqs : List Nat
deriving DecidableEq

/-- The outer `while True` loop of `iterative_geo_api_retrieve`.
`iteration` starts at 1 and `params["resultOffset"] = offset * (iteration - 1)`
for every request of that iteration.  An empty feature list ends the loop
normally; a non-empty page is appended and, when `offset = 0`, the loop
stops after that first page.  `fuel` bounds the number of iterations (the
Python loop is unbounded; every theorem below supplies enough fuel). -/
def loopPages (api : Nat → Resp) (offset maxRetries : Nat) :
    Nat → Nat → Nat → Option LoopRes
  | 0, _, _ => none
  | fuel + 1, iteration, rc =>
    let ro := offset * (iteration - 1)
    match fetchPage api maxRetries rc with
    | (used, .hardFail) => some ⟨none, false, List.replicate used ro⟩
    | (used, .page fs) =>
      if fs.isEmpty then some ⟨some [], true, List.replicate used ro⟩
      else if offset = 0 then some ⟨some [fs], true, List.replicate used ro⟩
      else
        match loopPages api offset maxRetries fuel (iteration + 1) (rc + used) with
        | none => none
        | some r => some ⟨r.raw.map (fs :: ·), r.status, List.replicate used ro ++ r.reqs⟩

/-- Final result of `iterative_geo_api_retrieve`: the combined features of
all collected pages (`GeoDataFrame.from_features` + `concat` in the source,
i.e. the concatenation of the pages' feature lists; `none` on failure),
the status flag, and the per-request `resultOffset` log. -/
structure RetrieveRes where
  result : Option (List Feature)
  status : Bool
  reqs : List Nat
deriving DecidableEq

/-- `iterative_geo_api_retrieve` from `src/download/process/util.py`,
with the HTTP layer abstracted to the response sequence `api` and the
unbounded loop bounded by `fuel` (`none` = fuel exhausted). -/
def iterative_geo_api_retrieve (api : Nat → Resp) (offset maxRetries fuel : Nat) :
    Option RetrieveRes :=
  (loopPages api offset maxRetries fuel 1 0).map fun r =>
    ⟨r.raw.map List.flatten, r.status, r.reqs⟩

/-! ## Validation primitives
(`src/download/configure/validate/utils.py` and `validators.py`) -/

/-- `empty_value` from `validate/utils.py` restricted to strings: true iff
`str(val).isspace() or len(str(val)) == 0`, i.e. every character is
whitespace (an empty string included). -/
def empty_value (s : String) : Bool :=
  s.toList.all (fun c => c.isWhitespace)

/-- `string_contains_space` from `validate/utils.py`:
`len(string) > len(string.replace(" ", ""))`. -/
def string_contains_space (s : String) : Bool :=
  decide ((s.toList.filter (fun c => c ≠ ' ')).length < s.toList.length)

/-- Python `str.split(sep)` for a one-character separator, on character
lists: `splitOnChar sep cs` is the list of separator-free chunks, with
`[[]]` for the empty string. -/
def splitOnChar (sep : Char) : List Char → List (List Char)
  | [] => [[]]
  | c :: rest =>
    match splitOnChar sep rest with
    | [] => [[]]
    | g :: gs => if c = sep then [] :: g :: gs else (c :: g) :: gs

/-- `s.split(sep)` for the one-character separators (`"_"`, `"-"`) used by
the validators. -/
def pySplit (s : String) (sep : Char) : List String :=
  (splitOnChar sep s.toList).map String.mk

/-- `invalid_symbol_count` from `validate/utils.py`:
`len(string.split(symbol)) != occurences + 1` (every call site passes a
one-character symbol). -/
def invalid_symbol_count (s : String) (symbol : Char) (occurences : Nat) : Bool :=
  decide ((pySplit s symbol).length ≠ occurences + 1)

/-- Python `int(...)` on the tokens reaching `validate_year`: an optional
leading `-` followed by at least one decimal digit.  (Python also tolerates
surrounding whitespace, a `+` sign and embedded underscores; the year
tokens produced by splitting on `_` and `-` never carry those.) -/
def parseNatDigits (cs : List Char) : Option Nat :=
  if cs ≠ [] ∧ cs.all Char.isDigit then
    some (cs.foldl (fun acc c => 10 * acc + (c.toNat - '0'.toNat)) 0)
  else none

/-- Python `int(s)` (see `parseNatDigits`). -/
def pyInt (s : String) : Option Int :=
  match s.toList with
  | '-' :: rest => (parseNatDigits rest).map (fun n => -(n : Int))
  | cs => (parseNatDigits cs).map (fun n => (n : Int))

/-- `validate_year` from `validate/utils.py`: parse the token as an integer
and require `1990 <= year <= current year`.  The wall-clock current year is
a parameter of the model. -/
def validate_year (currYear : Int) (year : String) : Bool :=
  match pyInt year with
  | none => false
  | some y => decide (1990 ≤ y ∧ y ≤ currYear)

/-- `string_contains_year` from `validate/utils.py`: take the part after the
underscore (`string.split("_")[1]`; its callers have already ensured there
is exactly one `_`) and require every `-`-separated token to be a valid
year. -/
def string_contains_year (currYear : Int) (s : String) : Bool :=
  (pySplit ((pySplit s '_').getD 1 "") '-').all (validate_year currYear)

/-- The distinct error kinds raised by `validate_output_filename`
(`EmptyValError`, `InvalidSpaceError`, `InvalidNumberOfSymbolsError`,
`InvalidYearError` in `validate/exceptions.py`). -/
inductive VErr where
  | emptyVal : VErr
  | invalidSpace : VErr
  | invalidNumberOfSymbols : VErr
  | invalidYear : VErr
deriving DecidableEq

/-- `validate_output_filename` from `validate/validators.py`: reject empty
values, then spaces, then a `_`-count different from one, then an invalid
year suffix; otherwise return the filename unchanged. -/
def validate_output_filename (currYear : Int) (filename : String) :
    Except VErr String :=
  if empty_value filename then .error .emptyVal
  else if string_contains_space filename then .error .invalidSpace
  else if invalid_symbol_count filename '_' 1 then .error .invalidNumberOfSymbols
  else if ¬ string_contains_year currYear filename then .error .invalidYear
  else .ok filename

/-! ## File descriptors, paths and the Arcgis handler
(`src/download/configure/file.py`, `src/download/process/handlers.py`,
path helpers from `src/download/process/util.py`) -/

/-- The `File` pydantic model from `configure/file.py`: folder, url, file
extension and the disk-write flag (default `False`). -/
structure File where
  folder : String
  url : String
  file_ext : String
  write_to_disk : Bool
deriving DecidableEq

/-- Helper for `generate_slug`: collapse runs of spaces to a single space
(`re.sub(" +", " ", name)`).  The boolean records whether the previous
character was a space. -/
def collapseSpacesAux : Bool → List Char → List Char
  | _, [] => []
  | prevSpace, c :: rest =>
    if c = ' ' then
      if prevSpace then collapseSpacesAux true rest
      else ' ' :: collapseSpacesAux true rest
    else c :: collapseSpacesAux false rest

/-- `generate_slug` from `process/util.py` with the default delimiter:
collapse space runs, lower-case, then replace each space by `-`. -/
def generate_slug (name : String) : String :=
  String.mk ((collapseSpacesAux false name.toList).map
    (fun c => if c.toLower = ' ' then '-' else c.toLower))

/-- Helper for `pyStem`: walking the reversed character list, drop
everything up to and including the first `.` found; `none` when there is no
`.` or when the characters before that `.` (in original orientation) are
empty. -/
def stemRevAux : List Char → Option (List Char)
  | [] => none
  | c :: rest =>
    if c = '.' then (if rest.isEmpty then none else some rest)
    else stemRevAux rest

/-- `pathlib.Path(...).stem` applied to a final path component: the name
without its suffix, where the suffix starts at the last `.` provided that
dot is neither the first nor the last character. -/
def pyStem (name : String) : String :=
  let rev := name.toList.reverse
  if rev.head? = some '.' then name
  else
    match stemRevAux rev with
    | some st => String.mk st.reverse
    | none => name

/-- A file found under the raw-data root by `raw_directory.glob("**/*.*")`:
its path rendered as a string (`str(title)`) and its stem (`title.stem`).
For files written by the model itself the stem is computed with `pyStem`. -/
structure DiskFile where
  pathStr : String
  stem : String
deriving DecidableEq

/-- Is `needle` a contiguous substring of `hay`?  Models Python's
`needle in str(path)`. -/
def listContainsSub (needle : List Char) : List Char → Bool
  | [] => needle.isEmpty
  | c :: rest => needle.isPrefixOf (c :: rest) || listContainsSub needle rest

/-- `"DS_Store" in str(title)` — the OS-artifact filter used by
`Downloader.existing_files` and `Downloader.old_data`. -/
def dsStore (s : String) : Bool :=
  listContainsSub "DS_Store".toList s.toList

/-- `generate_data_path` from `process/util.py`:
`path / generate_slug(folder) / f"{title}.{ext}"` (rendered as a string;
the `mkdir` side effect is irrelevant to the claims). -/
def generate_data_path (path folder title ext : String) : String :=
  path ++ "/" ++ generate_slug folder ++ "/" ++ title ++ "." ++ ext

/-- The disk file produced when a handler writes `title.ext` for folder
`folder` under the root `path`. -/
def mkWrite (path folder title ext : String) : DiskFile :=
  ⟨generate_data_path path folder title ext, pyStem (title ++ "." ++ ext)⟩

/-- The `ArcgisGeomHandler` pydantic model from `process/handlers.py`
(validated fields; `offset` is validated into `[0, 2000]`, hence `Nat`). -/
structure ArcgisGeomHandler where
  file : File
  filename : String
  server : String
  outfields : Option String
  format : String
  offset : Nat
  output_filename : String
deriving DecidableEq

/-- Result of a handler's `execute`: the status flag, the returned mapping
`{output_filename: payload-or-None}` (as an association list) and the files
written to disk as a side effect. -/
structure ExecRes where
  status : Bool
  outputs : List (String × Option (List Feature))
  writes : List DiskFile
deriving DecidableEq

/-- `ArcgisGeomHandler.execute` from `process/handlers.py`: delegate to
`iterative_geo_api_retrieve` with the handler's offset and
`max_retries = 3`; on failure return `(False, {output_filename: None})`;
on success write the payload to `generate_data_path(...)` when
`file.write_to_disk` and return `(True, {output_filename: gdf})`.
`root` is the `path` argument, `api`/`fuel` as in the retrieval model. -/
def ArcgisGeomHandler.execute (h : ArcgisGeomHandler) (root : String)
    (api : Nat → Resp) (fuel : Nat) : Option ExecRes :=
  match iterative_geo_api_retrieve api h.offset 3 fuel with
  | none => none
  | some r =>
    if r.status then
      some ⟨true, [(h.output_filename, r.result)],
        if h.file.write_to_disk then
          [mkWrite root h.file.folder h.output_filename h.file.file_ext]
        else []⟩
    else some ⟨false, [(h.output_filename, none)], []⟩

/-! ## Configuration model (`src/download/configure/config.py`)

`Config.entries` is an ordered list of handler instances.  The duplicate
passes dispatch on the Python class name (`type(entry).__name__`) and only
read `entry.file.url` and `entry.filenames`, so an entry is modelled by
those three components. -/

/-- A `Config` entry as seen by the duplicate passes, the filename lookup
and the `Downloader`: the handler's Python class name, its `File`
descriptor and its `output_filename`. -/
structure PyHandler where
  typeName : String
  file : File
  output_filename : String
deriving DecidableEq

/-- Modelled from the spec: handler variants other than `ArcgisGeomHandler`
(`ZipHandler`, `EESHandler`, …) live outside `src/`; per the spec they
follow the same `{execute, filenames}` contract, and for the duplicate-URL
pass only their class name matters, carried in `PyHandler.typeName`.  This
list is the always-exempt category hard-coded in `Config._find_duplicate_url`. -/
def exemptTypeNames : List String := ["ArcgisGeomHandler"]

/-- The `filenames` property of `DownloadHandler`: the single-element list
`[output_filename]`. -/
def filenames (h : PyHandler) : List String := [h.output_filename]

/-- The advisory warnings emitted by the two duplicate-detection passes. -/
inductive ConfigWarning where
  | dupZipUrl : String → ConfigWarning
  | dupUrl : String → ConfigWarning
  | dupFilename : String → ConfigWarning
deriving DecidableEq

/-- The scan of `Config._find_duplicate_url`: `urls` and `zip_urls` are the
two running lists; `ZipHandler` entries use `zip_urls`, entries whose class
name is in `exemptTypeNames` are skipped, all others use `urls`.  A URL
already seen in its own list warns and is not re-appended. -/
def findDuplicateUrlAux : List PyHandler → List String → List String → List ConfigWarning
  | [], _, _ => []
  | e :: rest, urls, zipUrls =>
    if e.typeName = "ZipHandler" then
      if e.file.url ∈ zipUrls then
        .dupZipUrl e.file.url :: findDuplicateUrlAux rest urls zipUrls
      else findDuplicateUrlAux rest urls (zipUrls ++ [e.file.url])
    else if e.typeName ∈ exemptTypeNames then
      findDuplicateUrlAux rest urls zipUrls
    else if e.file.url ∈ urls then
      .dupUrl e.file.url :: findDuplicateUrlAux rest urls zipUrls
    else findDuplicateUrlAux rest (urls ++ [e.file.url]) zipUrls

/-- `Config._find_duplicate_url`: warnings only, never an abort. -/
def find_duplicate_url (entries : List PyHandler) : List ConfigWarning :=
  findDuplicateUrlAux entries [] []

/-- The scan of `Config._find_duplicate_filename` over the stream of all
entries' filenames, with its running `filenames` list. -/
def findDuplicateFilenameAux : List String → List String → List ConfigWarning
  | [], _ => []
  | f :: rest, seen =>
    if f ∈ seen then .dupFilename f :: findDuplicateFilenameAux rest seen
    else findDuplicateFilenameAux rest (seen ++ [f])

/-- `Config._find_duplicate_filename`: warnings only, never an abort. -/
def find_duplicate_filename (entries : List PyHandler) : List ConfigWarning :=
  findDuplicateFilenameAux ((entries.map filenames).flatten) []

/-- The two validation passes run at the end of `Config.__post_init__`:
they inspect, never mutate, the already-built `entries`, and return only
advisory warnings — construction always completes with the same entries. -/
def post_init_checks (entries : List PyHandler) :
    List PyHandler × List ConfigWarning :=
  (entries, find_duplicate_url entries ++ find_duplicate_filename entries)

/-- The linear scan inside `Config.find_file_config`: the first entry whose
`filenames` contains the searched filename. -/
def handlerFor (entries : List PyHandler) (filename : String) : Option PyHandler :=
  entries.find? (fun e => decide (filename ∈ filenames e))

/-- `Config.find_file_config`: first matching entry, or the
`"Filename: ... does not exist in the config object"` `ValueError`. -/
def find_file_config (entries : List PyHandler) (filename : String) :
    Except String PyHandler :=
  match handlerFor entries filename with
  | some e => .ok e
  | none => .error "filename does not exist in the config object"

/-! ## Reconciliation engine (`src/download/downloader.py`)

The filesystem is external state: `disk` is the list of files the glob
`raw_directory.glob("**/*.*")` would return, passed to each operation. -/

/-- The `Downloader` dataclass: the config's entries, the raw-data root and
the archive flag.  (`data` is an output of `update` in the model.) -/
structure Downloader where
  entries : List PyHandler
  raw_directory : String
  archive : Bool
deriving DecidableEq

/-- The order Python's `sorted(...)` uses on strings: lexicographic
comparison of the code-point sequences. -/
def strle (a b : String) : Prop := a.toList ≤ b.toList

instance : DecidableRel strle := fun a b =>
  inferInstanceAs (Decidable (a.toList ≤ b.toList))

instance : IsTrans String strle :=
  ⟨fun _ _ _ hab hbc => le_trans hab hbc⟩

instance : IsTotal String strle :=
  ⟨fun a b => le_total a.toList b.toList⟩

instance : IsAntisymm String strle :=
  ⟨fun _ _ h1 h2 => String.toList_inj.mp (le_antisymm h1 h2)⟩

/-- `sorted(...)` on a list of strings (ascending, stable). -/
def sortStrings (l : List String) : List String :=
  List.insertionSort strle l

/-- The unsorted comprehension inside `Downloader.existing_files`:
stems of all globbed files whose path does not contain `DS_Store`. -/
def existingRaw (disk : List DiskFile) : List String :=
  (disk.filter (fun f => !dsStore f.pathStr)).map (fun f => f.stem)

/-- `Downloader.existing_files`: the sorted stems. -/
def existing_files (disk : List DiskFile) : List String :=
  sortStrings (existingRaw disk)

/-- The unsorted comprehension inside `Downloader.required_files`:
`[filename for entry in config.entries for filename in entry.filenames]`. -/
def requiredRaw (d : Downloader) : List String :=
  (d.entries.map filenames).flatten

/-- `Downloader.required_files`: the sorted required filenames. -/
def required_files (d : Downloader) : List String :=
  sortStrings (requiredRaw d)

/-- `Downloader.old_data`: globbed files (minus `DS_Store` artifacts) whose
stem is not in `required_files`. -/
def old_data (d : Downloader) (disk : List DiskFile) : List DiskFile :=
  (disk.filter (fun f => !dsStore f.pathStr)).filter
    (fun f => decide (f.stem ∉ required_files d))

/-- `Downloader.check`: `required_files == existing_files` (list equality of
the two sorted lists). -/
def check (d : Downloader) (disk : List DiskFile) : Bool :=
  decide (required_files d = existing_files disk)

/-- The set `set(required_files) - set(existing_files)` underlying
`Downloader.missing`. -/
def missingFinset (d : Downloader) (disk : List DiskFile) : Finset String :=
  (required_files d).toFinset \ (existing_files disk).toFinset

/-- `Downloader.missing` returns `list(set(required) - set(existing))`:
a duplicate-free list whose elements are exactly the missing filenames, in
an order CPython derives from its (seed-randomised) string hashes.  An
`enum : List String` is a possible return value iff it satisfies this
predicate. -/
def validEnum (d : Downloader) (disk : List DiskFile) (enum : List String) : Prop :=
  enum.Nodup ∧ enum.toFinset = missingFinset d disk

instance (d : Downloader) (disk : List DiskFile) (enum : List String) :
    Decidable (validEnum d disk enum) :=
  inferInstanceAs (Decidable (_ ∧ _))

/-- The observable behaviour of `ArcgisGeomHandler.execute` as invoked by
`Downloader.update`, with the retrieval outcome abstracted into oracles:
`ok` is the status returned by `iterative_geo_api_retrieve` for this
handler's file and `payload` the retrieved features.  On success the
payload is written to the deterministic path when `file.write_to_disk`;
on failure the returned mapping binds `output_filename` to `None`. -/
def runHandler (h : PyHandler) (root : String) (ok : Bool)
    (payload : List Feature) : ExecRes :=
  if ok then
    ⟨true, [(h.output_filename, some payload)],
      if h.file.write_to_disk then
        [mkWrite root h.file.folder h.output_filename h.file.file_ext]
      else []⟩
  else ⟨false, [(h.output_filename, none)], []⟩

/-- Result of one `Downloader.update` call: the raw-data directory content
afterwards, the `(filename, payload)` pairs merged into `self.data` during
the call, the aggregate status, the files removed (deleted or archived) and
the missing filenames processed, in order. -/
structure UpdateRes where
  disk : List DiskFile
  data : List (String × Option (List Feature))
  status : Bool
  removed : List DiskFile
  executed : List String
deriving DecidableEq

/-- `self.data[filename] = data_item` — Python dict assignment on the
association-list model. -/
def setKey (m : List (String × Option (List Feature))) (k : String)
    (v : Option (List Feature)) : List (String × Option (List Feature)) :=
  if m.any (fun p => p.1 = k) then
    m.map (fun p => if p.1 = k then (k, v) else p)
  else m ++ [(k, v)]

/-- Merge all `(filename, data_item)` pairs of a successful execute. -/
def upsertAll (m : List (String × Option (List Feature)))
    (outs : List (String × Option (List Feature))) :
    List (String × Option (List Feature)) :=
  outs.foldl (fun acc p => setKey acc p.1 p.2) m

/-- The `for missing_file in self.missing()` loop of `Downloader.update`:
resolve the handler (`ValueError` aborts the call), execute it, merge the
outputs on success, and clear the aggregate status on failure. -/
def updateLoop (entries : List PyHandler) (root : String) (ok : String → Bool)
    (payload : String → List Feature) :
    List String → UpdateRes → Except Unit UpdateRes
  | [], acc => .ok acc
  | f :: rest, acc =>
    match find_file_config entries f with
    | .error _ => .error ()
    | .ok h =>
      let r := runHandler h root (ok f) (payload f)
      updateLoop entries root ok payload rest
        ⟨acc.disk ++ r.writes,
         if r.status then upsertAll acc.data r.outputs else acc.data,
         acc.status && r.status,
         acc.removed,
         acc.executed ++ [f]⟩

/-- `Downloader.update`: if `check()` holds report up to date; otherwise
remove every `old_data` file (archived or deleted — either way it leaves
the raw-data tree) and process the missing files.  `enum` is the iteration
order produced by `missing()` (see `validEnum`); `ok`/`payload` are the
per-file retrieval oracles. -/
def update (d : Downloader) (disk : List DiskFile) (ok : String → Bool)
    (payload : String → List Feature) (enum : List String) :
    Except Unit UpdateRes :=
  if check d disk then .ok ⟨disk, [], true, [], []⟩
  else
    let removed := old_data d disk
    updateLoop d.entries d.raw_directory ok payload enum
      ⟨disk.filter (fun f => decide (f ∉ removed)), [], true, removed, []⟩

/-- The disk files written while processing `fs` in order (one per
successfully fetched filename whose handler has `write_to_disk`). -/
def writesFor (entries : List PyHandler) (root : String) (ok : String → Bool)
    (fs : List String) : List DiskFile :=
  fs.filterMap (fun f =>
    match handlerFor entries f with
    | some e =>
      if ok f && e.file.write_to_disk then
        some (mkWrite root e.file.folder e.output_filename e.file.file_ext)
      else none
    | none => none)

/-! ## Concrete instances used by counterexamples and witnesses -/

/-- A retrieval-success oracle that always succeeds. -/
def okAll : String → Bool := fun _ => true

/-- A payload oracle returning an empty feature collection. -/
def payAll : String → List Feature := fun _ => []

/-- An Arcgis config entry producing `a_2019`, writing to disk. -/
def entryA : PyHandler :=
  ⟨"ArcgisGeomHandler", ⟨"Folder A", "http://example.com/a", "parquet", true⟩, "a_2019"⟩

/-- An Arcgis config entry producing `b_2019`, writing to disk. -/
def entryB : PyHandler :=
  ⟨"ArcgisGeomHandler", ⟨"Folder B", "http://example.com/b", "parquet", true⟩, "b_2019"⟩

/-- An Arcgis config entry producing `a_2019` with `write_to_disk = False`
(the pydantic default). -/
def entryANoWrite : PyHandler :=
  ⟨"ArcgisGeomHandler", ⟨"Folder A", "http://example.com/a", "parquet", false⟩, "a_2019"⟩

/-- A `ZipHandler` entry (archive-style duplicate rule) for URL `u`. -/
def entryZip : PyHandler :=
  ⟨"ZipHandler", ⟨"folder", "http://example.com/u", "zip", false⟩, "z_2019"⟩

/-- An `EESHandler` entry (ordinary duplicate rule) for the same URL `u`. -/
def entryEes : PyHandler :=
  ⟨"EESHandler", ⟨"folder", "http://example.com/u", "zip", false⟩, "e_2019"⟩

/-- A second ordinary (`CSVHandler`) entry for the same URL `u`. -/
def entryCsv : PyHandler :=
  ⟨"CSVHandler", ⟨"folder", "http://example.com/u", "csv", false⟩, "c_2019"⟩

/-- Downloader over the single entry `a_2019`. -/
def dlA : Downloader := ⟨[entryA], "data/raw", false⟩

/-- Downloader over the single non-writing entry `a_2019`. -/
def dlANoWrite : Downloader := ⟨[entryANoWrite], "data/raw", false⟩

/-- Downloader over the two entries `a_2019`, `b_2019`. -/
def dlAB : Downloader := ⟨[entryA, entryB], "data/raw", false⟩

/-- A raw-data tree holding the stem `a_2019` twice, in two folders. -/
def diskTwoA : List DiskFile :=
  [⟨"data/raw/f1/a_2019.parquet", "a_2019"⟩, ⟨"data/raw/f2/a_2019.parquet", "a_2019"⟩]

/-- A concrete Arcgis handler used to witness `execute`'s failure shape. -/
def handlerC6 : ArcgisGeomHandler :=
  ⟨⟨"boundaries", "http://example.com/geo", "parquet", false⟩,
   "Wards_2019", "ons", none, "geojson", 0, "a_2019"⟩

/-- The result of `handlerC6.execute` when every request transport-fails. -/
def execResC6 : ExecRes := ⟨false, [("a_2019", none)], []⟩

/-- The result of running `update` on `dlA` with an empty raw-data tree and
an always-succeeding retrieval oracle. -/
def resW : UpdateRes :=
  ⟨[⟨"data/raw/folder-a/a_2019.parquet", "a_2019"⟩],
   [("a_2019", some [])], true, [], ["a_2019"]⟩

/-- Response sequence: two non-empty pages, then an empty page. -/
def apiC2 : Nat → Resp := fun k => if k < 2 then .ok (some [k]) else .ok (some [])

/-- The pages of `apiC2`. -/
def psC2 : Nat → List Feature := fun k => [k]

/-- Response sequence: one good page, then a transport failure. -/
def apiC3 : Nat → Resp := fun k => if k = 0 then .ok (some [5]) else .fail

/-- A response sequence whose every answer carries a non-empty
`"features"` field. -/
def apiC7 : Nat → Resp := fun _ => .ok (some [3])

/-- A response sequence whose first answer lacks the `"features"` field and
whose second answer is an empty page. -/
def apiC7x : Nat → Resp := fun k => if k = 0 then .ok none else .ok (some [])

/-! # Theorems -/

/-- If the next response carries a `"features"` field, the inner retry loop
issues exactly one request. -/
theorem fetchPage_features (api : Nat → Resp) (m rc : Nat) (fs : List Feature)
    (h : api rc = .ok (some fs)) : fetchPage api (m + 1) rc = (1, .page fs) := by
  simp [fetchPage, h]

/-- Behaviour of the outer loop on a run of `N` non-empty pages followed by
an empty page, each answered on the first attempt. -/
theorem loopPages_full (api : Nat → Resp) (offset mr : Nat)
    (hoff : offset ≠ 0) (hmr : 1 ≤ mr) :
    ∀ (N : Nat) (ps : Nat → List Feature) (fuel it rc : Nat),
      N + 1 ≤ fuel → 1 ≤ it →
      (∀ k, k < N → api (rc + k) = .ok (some (ps k)) ∧ ps k ≠ []) →
      api (rc + N) = .ok (some []) →
      loopPages api offset mr fuel it rc =
        some ⟨some ((List.range N).map ps), true,
              (List.range (N + 1)).map (fun k => offset * (it - 1 + k))⟩ := by
  intro N
  induction N with
  | zero =>
    intro ps fuel it rc hfuel hit hgood hlast
    obtain ⟨f, rfl⟩ : ∃ f, fuel = f + 1 := ⟨fuel - 1, by omega⟩
    obtain ⟨m, rfl⟩ : ∃ m, mr = m + 1 := ⟨mr - 1, by omega⟩
    rw [Nat.add_zero] at hlast
    simp [loopPages, fetchPage, hlast, List.range_succ]
  | succ N ih =>
    intro ps fuel it rc hfuel hit hgood hlast
    obtain ⟨f, rfl⟩ : ∃ f, fuel = f + 1 := ⟨fuel - 1, by omega⟩
    obtain ⟨m, rfl⟩ : ∃ m, mr = m + 1 := ⟨mr - 1, by omega⟩
    have h0 := hgood 0 (Nat.succ_pos N)
    rw [Nat.add_zero] at h0
    have hemp : (ps 0).isEmpty = false := by
      cases hps : ps 0 with
      | nil => exact absurd hps h0.2
      | cons a as => rfl
    have hrec := ih (fun k => ps (k + 1)) f (it + 1) (rc + 1)
      (by omega) (by omega)
      (fun k hk => by
        have h := hgood (k + 1) (by omega)
        rwa [show rc + (k + 1) = rc + 1 + k by omega] at h)
      (by rw [show rc + 1 + N = rc + (N + 1) by omega]; exact hlast)
    have hr1 : (List.range (N + 1)).map ps =
        ps 0 :: (List.range N).map (fun k => ps (k + 1)) := by
      rw [List.range_succ_eq_map]
      simp [List.map_map, Function.comp]
    have hr2 : (List.range (N + 1 + 1)).map (fun k => offset * (it - 1 + k)) =
        offset * (it - 1) :: (List.range (N + 1)).map
          (fun k => offset * (it + 1 - 1 + k)) := by
      rw [List.range_succ_eq_map]
      simp only [List.map_cons, List.map_map, Nat.add_zero, List.cons.injEq]
      refine ⟨trivial, ?_⟩
      apply List.map_congr_left
      intro k _
      simp only [Function.comp]
      congr 1
      omega
    simp [loopPages, fetchPage, h0.1, hemp, hoff, hrec, hr1, hr2]

/-- C2: for every page size `offset > 0` and every response sequence of `N`
non-empty pages (each successful, with a `"features"` field) followed by an
empty page, `iterative_geo_api_retrieve` issues exactly `N + 1` requests —
the request of iteration `i` carrying `resultOffset = offset * (i - 1)` —
and returns success with the concatenation of all `N` pages' features. -/
theorem pagination_termination (api : Nat → Resp) (offset mr fuel N : Nat)
    (ps : Nat → List Feature)
    (hoff : 0 < offset) (hmr : 1 ≤ mr) (hfuel : N + 1 ≤ fuel)
    (hpages : ∀ k, k < N → api k = .ok (some (ps k)) ∧ ps k ≠ [])
    (hlast : api N = .ok (some [])) :
    iterative_geo_api_retrieve api offset mr fuel =
      some ⟨some ((List.range N).map ps).flatten, true,
            (List.range (N + 1)).map (fun k => offset * k)⟩ := by
  have h := loopPages_full api offset mr (by omega) hmr N ps fuel 1 0 hfuel
    (le_refl 1) (fun k hk => by simpa using hpages k hk) (by simpa using hlast)
  unfold iterative_geo_api_retrieve
  rw [h]
  simp

/-- Witness: `apiC2` delivers pages `[0]`, `[1]`, then an empty page; the
retrieval issues three requests at offsets 0, 100, 200 and returns the
combined features. -/
theorem pagination_termination_witness :
    iterative_geo_api_retrieve apiC2 100 3 5 =
      some ⟨some [0, 1], true, [0, 100, 200]⟩ := by
  have h := pagination_termination apiC2 100 3 5 2 psC2 (by decide) (by decide)
    (by decide) (by decide) (by decide)
  simpa using h

/-- Behaviour of the outer loop on a run of `J` good pages followed by a
page whose fetch hard-fails: the whole call reports failure and no data. -/
theorem loopPages_abort (api : Nat → Resp) (offset mr : Nat)
    (hoff : offset ≠ 0) (hmr : 1 ≤ mr) :
    ∀ (J : Nat) (ps : Nat → List Feature) (fuel it rc : Nat),
      J + 1 ≤ fuel → 1 ≤ it →
      (∀ k, k < J → api (rc + k) = .ok (some (ps k)) ∧ ps k ≠ []) →
      (fetchPage api mr (rc + J)).2 = .hardFail →
      loopPages api offset mr fuel it rc =
        some ⟨none, false,
          (List.range J).map (fun k => offset * (it - 1 + k)) ++
            List.replicate (fetchPage api mr (rc + J)).1 (offset * (it - 1 + J))⟩ := by
  intro J
  induction J with
  | zero =>
    intro ps fuel it rc hfuel hit hgood hbad
    obtain ⟨f, rfl⟩ : ∃ f, fuel = f + 1 := ⟨fuel - 1, by omega⟩
    rw [Nat.add_zero] at hbad
    rcases hfp : fetchPage api mr rc with ⟨used, out⟩
    rw [hfp] at hbad
    simp only at hbad
    subst hbad
    simp [loopPages, hfp]
  | succ J ih =>
    intro ps fuel it rc hfuel hit hgood hbad
    obtain ⟨f, rfl⟩ : ∃ f, fuel = f + 1 := ⟨fuel - 1, by omega⟩
    obtain ⟨m, rfl⟩ : ∃ m, mr = m + 1 := ⟨mr - 1, by omega⟩
    have h0 := hgood 0 (Nat.succ_pos J)
    rw [Nat.add_zero] at h0
    have hemp : (ps 0).isEmpty = false := by
      cases hps : ps 0 with
      | nil => exact absurd hps h0.2
      | cons a as => rfl
    have hshift : rc + 1 + J = rc + (J + 1) := by omega
    have hrec := ih (fun k => ps (k + 1)) f (it + 1) (rc + 1)
      (by omega) (by omega)
      (fun k hk => by
        have h := hgood (k + 1) (by omega)
        rwa [show rc + (k + 1) = rc + 1 + k by omega] at h)
      (by rw [hshift]; exact hbad)
    have hr2 : (List.range (J + 1)).map (fun k => offset * (it - 1 + k)) =
        offset * (it - 1) :: (List.range J).map
          (fun k => offset * (it + 1 - 1 + k)) := by
      rw [List.range_succ_eq_map]
      simp only [List.map_cons, List.map_map, Nat.add_zero, List.cons.injEq]
      refine ⟨trivial, ?_⟩
      apply List.map_congr_left
      intro k _
      simp only [Function.comp]
      congr 1
      omega
    have hlast2 : it + 1 - 1 + J = it - 1 + (J + 1) := by omega
    simp only [loopPages, fetchPage_features api m rc (ps 0) h0.1, hemp,
      Bool.false_eq_true, if_false, hoff, if_neg hoff, hrec, hshift, hr2, hlast2]
    simp

/-- C3: if pages `0 .. J-1` are good and the fetch of page `J` hard-fails
(a transport failure, or no `"features"` field on all `max_retries`
attempts), `iterative_geo_api_retrieve` returns `(None, False)` — it never
returns a partial combination of the earlier pages. -/
theorem pagination_abort (api : Nat → Resp) (offset mr fuel J : Nat)
    (ps : Nat → List Feature)
    (hoff : 0 < offset) (hmr : 1 ≤ mr) (hfuel : J + 1 ≤ fuel)
    (hgood : ∀ k, k < J → api k = .ok (some (ps k)) ∧ ps k ≠ [])
    (hbad : (fetchPage api mr J).2 = .hardFail) :
    iterative_geo_api_retrieve api offset mr fuel =
      some ⟨none, false,
        (List.range J).map (fun k => offset * k) ++
          List.replicate (fetchPage api mr J).1 (offset * J)⟩ := by
  have h := loopPages_abort api offset mr (by omega) hmr J ps fuel 1 0 hfuel
    (le_refl 1) (fun k hk => by simpa using hgood k hk) (by simpa using hbad)
  unfold iterative_geo_api_retrieve
  rw [h]
  simp

/-- Supporting invariant for the abort behaviour: for every response
sequence whatsoever, a failed retrieval carries no data and a successful
one always carries data — the primitive can never hand back a partial
combination of pages together with a failure status. -/
theorem retrieve_no_partial (api : Nat → Resp) (offset mr : Nat) :
    ∀ (fuel it rc : Nat) (lr : LoopRes),
      loopPages api offset mr fuel it rc = some lr →
      (lr.status = false ↔ lr.raw = none) := by
  intro fuel
  induction fuel with
  | zero => intro it rc lr h; cases h
  | succ f ih =>
    intro it rc lr h
    rw [loopPages] at h
    rcases hfp : fetchPage api mr rc with ⟨used, out⟩
    rw [hfp] at h
    cases out with
    | hardFail =>
      dsimp only at h
      rw [← Option.some.inj h]
      simp
    | page fs =>
      dsimp only at h
      by_cases hemp : fs.isEmpty = true
      · rw [if_pos hemp] at h
        rw [← Option.some.inj h]
        simp
      · rw [if_neg hemp] at h
        by_cases hoff : offset = 0
        · rw [if_pos hoff] at h
          rw [← Option.some.inj h]
          simp
        · rw [if_neg hoff] at h
          rcases hrec : loopPages api offset mr f (it + 1) (rc + used) with _ | r2
          · rw [hrec] at h
            cases h
          · rw [hrec] at h
            rw [← Option.some.inj h]
            have := ih (it + 1) (rc + used) r2 hrec
            cases hr2 : r2.raw with
            | none =>
              rw [hr2] at this
              simp [this.mpr rfl]
            | some raw2 =>
              rw [hr2] at this
              constructor
              · intro hst
                exact absurd (this.mp hst) (by simp)
              · intro hnone
                simp at hnone

/-- Witness: `apiC3` answers page 1 and then transport-fails; the retrieval
returns `(None, False)` after requests at offsets 0 and 50. -/
theorem pagination_abort_witness :
    iterative_geo_api_retrieve apiC3 50 3 5 = some ⟨none, false, [0, 50]⟩ := by
  have h := pagination_abort apiC3 50 3 5 1 (fun _ => [5]) (by decide) (by decide)
    (by decide) (by decide) (by decide)
  simpa using h

/-- C7 counterexample: with `offset = 0` and a first response lacking the
`"features"` field, the primitive issues two requests, not exactly one —
the retry loop runs even in unpaged mode. -/
theorem offset_zero_two_requests_counterexample :
    (iterative_geo_api_retrieve apiC7x 0 3 1).map (fun r => r.reqs.length) = some 2 ∧
    (iterative_geo_api_retrieve apiC7x 0 3 1).map (fun r => r.reqs.length) ≠ some 1 := by
  decide

/-- C7 (amended): with `offset = 0`, provided the first response carries a
`"features"` field, `iterative_geo_api_retrieve` issues exactly one request
(at `resultOffset = 0`) and returns success after that single page, whether
its feature list is empty or not. -/
theorem offset_zero_single_request (api : Nat → Resp) (mr fuel : Nat)
    (fs : List Feature) (hmr : 1 ≤ mr) (hfuel : 1 ≤ fuel)
    (h0 : api 0 = .ok (some fs)) :
    iterative_geo_api_retrieve api 0 mr fuel = some ⟨some fs, true, [0]⟩ := by
  obtain ⟨f, rfl⟩ : ∃ f, fuel = f + 1 := ⟨fuel - 1, by omega⟩
  obtain ⟨m, rfl⟩ : ∃ m, mr = m + 1 := ⟨mr - 1, by omega⟩
  unfold iterative_geo_api_retrieve
  cases fs with
  | nil => simp [loopPages, fetchPage, h0]
  | cons a as => simp [loopPages, fetchPage, h0]

/-- Witness: a single request suffices when the first response has
features. -/
theorem offset_zero_single_request_witness :
    iterative_geo_api_retrieve apiC7 0 3 1 = some ⟨some [3], true, [0]⟩ :=
  offset_zero_single_request apiC7 3 1 [3] (by decide) (by decide) rfl

/-- C6: whenever `ArcgisGeomHandler.execute` terminates and the paginated
retrieval failed, it returns `(False, {output_filename: None})`; and on
success and failure alike the returned mapping's keys are exactly
`[output_filename]`. -/
theorem execute_failure_mapping (h : ArcgisGeomHandler) (root : String)
    (api : Nat → Resp) (fuel : Nat) (r : ExecRes)
    (hex : h.execute root api fuel = some r) :
    (r.status = false → r.outputs = [(h.output_filename, none)]) ∧
    r.outputs.map Prod.fst = [h.output_filename] := by
  unfold ArcgisGeomHandler.execute at hex
  rcases hret : iterative_geo_api_retrieve api h.offset 3 fuel with _ | rr
  · rw [hret] at hex
    cases hex
  · rw [hret] at hex
    dsimp only at hex
    cases hst : rr.status with
    | true =>
      rw [hst] at hex
      simp only [if_true, Option.some.injEq] at hex
      subst hex
      simp
    | false =>
      rw [hst] at hex
      simp only [Bool.false_eq_true, if_false, Option.some.injEq] at hex
      subst hex
      simp

/-- Witness: with every request transport-failing, `execute` returns the
failure mapping that still carries the `a_2019` key. -/
theorem execute_failure_mapping_witness :
    (handlerC6.execute "data/raw" (fun _ => .fail) 1 = some execResC6) ∧
    ((execResC6.status = false →
        execResC6.outputs = [(handlerC6.output_filename, none)]) ∧
      execResC6.outputs.map Prod.fst = [handlerC6.output_filename]) :=
  ⟨by decide,
   execute_failure_mapping handlerC6 "data/raw" (fun _ => .fail) 1 execResC6 (by decide)⟩

/-- `validate_year` accepts `"2019"` whenever the current year is at least
2019. -/
theorem validate_year_2019 (c : Int) (hc : 2024 ≤ c) :
    validate_year c "2019" = true := by
  unfold validate_year
  rw [show pyInt "2019" = some 2019 from rfl]
  rw [decide_eq_true_eq]
  exact ⟨by norm_num, by omega⟩

/-- `validate_year` accepts `"2024"` whenever the current year is at least
2024. -/
theorem validate_year_2024 (c : Int) (hc : 2024 ≤ c) :
    validate_year c "2024" = true := by
  unfold validate_year
  rw [show pyInt "2024" = some 2024 from rfl]
  rw [decide_eq_true_eq]
  exact ⟨by norm_num, by omega⟩

/-- `validate_year` rejects `"1800"` for every current year: 1800 is below
the 1990 floor. -/
theorem validate_year_1800 (c : Int) : validate_year c "1800" = false := by
  unfold validate_year
  rw [show pyInt "1800" = some 1800 from rfl]
  rw [decide_eq_false_iff_not]
  intro h
  omega

/-- C8: `validate_output_filename` accepts `crime-data_2019` and
`crime-data_2019-2024`, and rejects `crime data_2019` with the whitespace
error, `crime-data-2019` with the symbol-count error and `crime-data_1800`
with the invalid-year error — three distinct error kinds. -/
theorem output_filename_validation_cases (c : Int) (hc : 2024 ≤ c) :
    validate_output_filename c "crime-data_2019" = .ok "crime-data_2019" ∧
    validate_output_filename c "crime-data_2019-2024" = .ok "crime-data_2019-2024" ∧
    validate_output_filename c "crime data_2019" = .error .invalidSpace ∧
    validate_output_filename c "crime-data-2019" = .error .invalidNumberOfSymbols ∧
    validate_output_filename c "crime-data_1800" = .error .invalidYear := by
  have hy1 : string_contains_year c "crime-data_2019" = true := by
    rw [show string_contains_year c "crime-data_2019" =
      (validate_year c "2019" && true) from rfl, validate_year_2019 c hc]
    rfl
  have hy2 : string_contains_year c "crime-data_2019-2024" = true := by
    rw [show string_contains_year c "crime-data_2019-2024" =
      (validate_year c "2019" && (validate_year c "2024" && true)) from rfl,
      validate_year_2019 c hc, validate_year_2024 c hc]
    rfl
  have hy3 : string_contains_year c "crime-data_1800" = false := by
    rw [show string_contains_year c "crime-data_1800" =
      (validate_year c "1800" && true) from rfl, validate_year_1800 c]
    rfl
  refine ⟨?_, ?_, ?_, ?_, ?_⟩
  · unfold validate_output_filename
    rw [show empty_value "crime-data_2019" = false from rfl,
      show string_contains_space "crime-data_2019" = false from rfl,
      show invalid_symbol_count "crime-data_2019" '_' 1 = false from rfl, hy1]
    simp
  · unfold validate_output_filename
    rw [show empty_value "crime-data_2019-2024" = false from rfl,
      show string_contains_space "crime-data_2019-2024" = false from rfl,
      show invalid_symbol_count "crime-data_2019-2024" '_' 1 = false from rfl, hy2]
    simp
  · unfold validate_output_filename
    rw [show empty_value "crime data_2019" = false from rfl,
      show string_contains_space "crime data_2019" = true from rfl]
    simp
  · unfold validate_output_filename
    rw [show empty_value "crime-data-2019" = false from rfl,
      show string_contains_space "crime-data-2019" = false from rfl,
      show invalid_symbol_count "crime-data-2019" '_' 1 = true from rfl]
    simp
  · unfold validate_output_filename
    rw [show empty_value "crime-data_1800" = false from rfl,
      show string_contains_space "crime-data_1800" = false from rfl,
      show invalid_symbol_count "crime-data_1800" '_' 1 = false from rfl, hy3]
    simp

/-- Witness: the five validation verdicts at current year 2026. -/
theorem output_filename_validation_cases_witness :
    validate_output_filename 2026 "crime-data_2019" = .ok "crime-data_2019" ∧
    validate_output_filename 2026 "crime-data_2019-2024" = .ok "crime-data_2019-2024" ∧
    validate_output_filename 2026 "crime data_2019" = .error .invalidSpace ∧
    validate_output_filename 2026 "crime-data-2019" = .error .invalidNumberOfSymbols ∧
    validate_output_filename 2026 "crime-data_1800" = .error .invalidYear :=
  output_filename_validation_cases 2026 (by norm_num)

/-- Sorting does not change membership. -/
theorem mem_sortStrings (l : List String) (s : String) :
    s ∈ sortStrings l ↔ s ∈ l :=
  (List.perm_insertionSort strle l).mem_iff

/-- Two lists that are permutations of each other sort identically. -/
theorem sortStrings_eq_of_perm (l1 l2 : List String) (h : l1.Perm l2) :
    sortStrings l1 = sortStrings l2 :=
  List.eq_of_perm_of_sorted
    ((List.perm_insertionSort strle l1).trans
      (h.trans (List.perm_insertionSort strle l2).symm))
    (List.sorted_insertionSort strle l1)
    (List.sorted_insertionSort strle l2)

/-- C1 counterexample: one handler requires `a_2019` and the raw-data tree
holds the stem `a_2019` twice (in two folders).  The two sides are equal as
sets, yet `check` is `False` — `check` is sensitive to multiplicity. -/
theorem check_set_equality_counterexample :
    (required_files dlA).toFinset = (existing_files diskTwoA).toFinset ∧
    check dlA diskTwoA = false := by
  decide

/-- C1 (amended): `check()` is true iff the required filenames and the
on-disk stems (minus OS artifacts) coincide as multisets — i.e. up to
ordering but with multiplicity. -/
theorem check_true_iff_multiset_eq (d : Downloader) (disk : List DiskFile) :
    check d disk = true ↔ (requiredRaw d).Perm (existingRaw disk) := by
  unfold check
  rw [decide_eq_true_eq]
  constructor
  · intro h
    have h2 : List.insertionSort strle (requiredRaw d) =
        List.insertionSort strle (existingRaw disk) := h
    have p1 := (List.perm_insertionSort strle (requiredRaw d)).symm
    rw [h2] at p1
    exact p1.trans (List.perm_insertionSort strle (existingRaw disk))
  · intro h
    exact sortStrings_eq_of_perm _ _ h

/-- C9 counterexample: a `ZipHandler` and an `EESHandler` — two handlers
neither of which is in the exempt category — share a URL, yet the
duplicate-URL pass emits no warning, because the two categories keep
separate `urls`/`zip_urls` pools. -/
theorem duplicate_url_mixed_category_no_warning :
    entryZip.typeName ∉ exemptTypeNames ∧
    entryEes.typeName ∉ exemptTypeNames ∧
    entryZip.file.url = entryEes.file.url ∧
    find_duplicate_url [entryZip, entryEes] = [] := by
  decide

/-- C9 (amended): two non-exempt handlers of the same duplicate-detection
category (both archive-style `ZipHandler`s, or both ordinary) sharing a URL
produce exactly one duplicate-URL warning, and construction completes with
the same two entries — the passes are advisory and never abort. -/
theorem duplicate_url_same_category_single_warning (e1 e2 : PyHandler)
    (hurl : e1.file.url = e2.file.url)
    (hcat : (e1.typeName = "ZipHandler" ∧ e2.typeName = "ZipHandler") ∨
      (e1.typeName ≠ "ZipHandler" ∧ e1.typeName ∉ exemptTypeNames ∧
       e2.typeName ≠ "ZipHandler" ∧ e2.typeName ∉ exemptTypeNames)) :
    (find_duplicate_url [e1, e2]).length = 1 ∧
    (post_init_checks [e1, e2]).1 = [e1, e2] := by
  refine ⟨?_, rfl⟩
  rcases hcat with ⟨hz1, hz2⟩ | ⟨hn1, hne1, hn2, hne2⟩
  · simp [find_duplicate_url, findDuplicateUrlAux, hz1, hz2, hurl]
  · simp [find_duplicate_url, findDuplicateUrlAux, hn1, hne1, hn2, hne2, hurl]

/-- Witness: two ordinary handlers (`EESHandler`, `CSVHandler`) sharing a
URL yield exactly one warning and both entries survive construction. -/
theorem duplicate_url_same_category_single_warning_witness :
    (find_duplicate_url [entryEes, entryCsv]).length = 1 ∧
    (post_init_checks [entryEes, entryCsv]).1 = [entryEes, entryCsv] :=
  duplicate_url_same_category_single_warning entryEes entryCsv rfl
    (Or.inr ⟨by decide, by decide, by decide, by decide⟩)

/-- A successful lookup returns an entry of the collection whose
`output_filename` is the searched filename. -/
theorem handlerFor_mem_and_name (entries : List PyHandler) (f : String)
    (e : PyHandler) (h : handlerFor entries f = some e) :
    e ∈ entries ∧ e.output_filename = f := by
  unfold handlerFor at h
  refine ⟨List.mem_of_find?_eq_some h, ?_⟩
  have hp := List.find?_some h
  simp only [filenames, decide_eq_true_eq, List.mem_singleton] at hp
  exact hp.symm

/-- Every filename produced by some entry has a successful lookup. -/
theorem handlerFor_isSome_of_mem (entries : List PyHandler) (f : String)
    (hf : f ∈ (entries.map filenames).flatten) :
    (handlerFor entries f).isSome = true := by
  obtain ⟨l, hl, hfl⟩ := List.mem_flatten.mp hf
  obtain ⟨e, he, rfl⟩ := List.mem_map.mp hl
  cases hfind : handlerFor entries f with
  | some _ => rfl
  | none =>
    exfalso
    have := List.find?_eq_none.mp hfind e he
    simp only [decide_eq_true_eq] at this
    exact this hfl

/-- The writes of one handler run: one file when the fetch succeeded and
the handler writes to disk, none otherwise. -/
theorem runHandler_writes (h : PyHandler) (root : String) (ok : Bool)
    (payload : List Feature) :
    (runHandler h root ok payload).writes =
      if ok && h.file.write_to_disk then
        [mkWrite root h.file.folder h.output_filename h.file.file_ext]
      else [] := by
  cases ok <;> simp [runHandler]

/-- The status of one handler run is the fetch status. -/
theorem runHandler_status (h : PyHandler) (root : String) (ok : Bool)
    (payload : List Feature) : (runHandler h root ok payload).status = ok := by
  cases ok <;> simp [runHandler]

/-- `writesFor` on a cons whose head resolves to `e`. -/
theorem writesFor_cons (entries : List PyHandler) (root : String)
    (ok : String → Bool) (f : String) (rest : List String) (e : PyHandler)
    (he : handlerFor entries f = some e) :
    writesFor entries root ok (f :: rest) =
      (if ok f && e.file.write_to_disk then
        [mkWrite root e.file.folder e.output_filename e.file.file_ext]
      else []) ++ writesFor entries root ok rest := by
  unfold writesFor
  rw [List.filterMap_cons, he]
  cases hcond : (ok f && e.file.write_to_disk) <;> simp [hcond]

/-- Unfolding of the per-file loop of `update`: when every filename
resolves, the loop succeeds, processes the filenames in order, appends
exactly the `writesFor` files to the store, and its status is the
conjunction of the per-file fetch statuses. -/
theorem updateLoop_spec (entries : List PyHandler) (root : String)
    (ok : String → Bool) (payload : String → List Feature) :
    ∀ (fs : List String) (acc : UpdateRes),
      (∀ f ∈ fs, (handlerFor entries f).isSome = true) →
      ∃ dataOut, updateLoop entries root ok payload fs acc =
        .ok ⟨acc.disk ++ writesFor entries root ok fs, dataOut,
             acc.status && fs.all ok, acc.removed, acc.executed ++ fs⟩ := by
  intro fs
  induction fs with
  | nil =>
    intro acc _
    exact ⟨acc.data, by simp [updateLoop, writesFor]⟩
  | cons f rest ih =>
    intro acc h
    obtain ⟨e, he⟩ := Option.isSome_iff_exists.mp (h f (List.mem_cons_self f rest))
    have hffc : find_file_config entries f = .ok e := by
      unfold find_file_config
      rw [he]
    obtain ⟨dataOut, heq⟩ :=
      ih ⟨acc.disk ++ (runHandler e root (ok f) (payload f)).writes,
          if (runHandler e root (ok f) (payload f)).status then
            upsertAll acc.data (runHandler e root (ok f) (payload f)).outputs
          else acc.data,
          acc.status && (runHandler e root (ok f) (payload f)).status,
          acc.removed,
          acc.executed ++ [f]⟩
        (fun g hg => h g (List.mem_cons_of_mem f hg))
    refine ⟨dataOut, ?_⟩
    rw [updateLoop, hffc]
    dsimp only
    rw [heq]
    rw [writesFor_cons entries root ok f rest e he, runHandler_status]
    simp [List.append_assoc, Bool.and_assoc, runHandler_writes]

/-- A valid `missing()` enumeration consists of required, not-yet-present
filenames. -/
theorem validEnum_mem (d : Downloader) (disk : List DiskFile)
    (enum : List String) (henum : validEnum d disk enum) :
    ∀ f ∈ enum, f ∈ requiredRaw d ∧ f ∉ existingRaw disk := by
  intro f hf
  have hms : f ∈ missingFinset d disk := by
    rw [← henum.2]
    exact List.mem_toFinset.mpr hf
  obtain ⟨hin, hout⟩ := Finset.mem_sdiff.mp hms
  refine ⟨(mem_sortStrings _ f).mp (List.mem_toFinset.mp hin), fun hmem => ?_⟩
  exact hout (List.mem_toFinset.mpr ((mem_sortStrings _ f).mpr hmem))

/-- Every filename of a valid enumeration has a successful handler
lookup. -/
theorem validEnum_handlerFor (d : Downloader) (disk : List DiskFile)
    (enum : List String) (henum : validEnum d disk enum) :
    ∀ f ∈ enum, (handlerFor d.entries f).isSome = true := fun f hf =>
  handlerFor_isSome_of_mem d.entries f (validEnum_mem d disk enum henum f hf).1

/-- When the store already checks out, the only valid enumeration is
empty. -/
theorem validEnum_nil_of_check (d : Downloader) (disk : List DiskFile)
    (enum : List String) (henum : validEnum d disk enum)
    (hc : check d disk = true) : enum = [] := by
  rw [List.eq_nil_iff_forall_not_mem]
  intro f hf
  obtain ⟨hin, hout⟩ := validEnum_mem d disk enum henum f hf
  have hlist : requiredRaw d = existingRaw disk → False := fun hr => hout (hr ▸ hin)
  have hperm := (check_true_iff_multiset_eq d disk).mp hc
  exact hout (hperm.mem_iff.mp hin)

/-- C10: for every valid `missing()` enumeration, every enumerated filename
has a handler (`find_file_config` succeeds on each), and `update` never
raises the filename-not-found error. -/
theorem update_lookup_never_fails (d : Downloader) (disk : List DiskFile)
    (ok : String → Bool) (payload : String → List Feature) (enum : List String)
    (henum : validEnum d disk enum) :
    enum.all (fun f => (find_file_config d.entries f).toOption.isSome) = true ∧
    (update d disk ok payload enum).toOption.isSome = true := by
  have hsome := validEnum_handlerFor d disk enum henum
  constructor
  · rw [List.all_eq_true]
    intro f hf
    obtain ⟨e, he⟩ := Option.isSome_iff_exists.mp (hsome f hf)
    simp only [find_file_config, he]
    rfl
  · unfold update
    by_cases hc : check d disk = true
    · rw [if_pos hc]
      rfl
    · rw [if_neg hc]
      obtain ⟨dataOut, heq⟩ := updateLoop_spec d.entries d.raw_directory ok payload
        enum _ hsome
      rw [heq]
      rfl

/-- Witness for C10 at a concrete downloader state. -/
theorem update_lookup_never_fails_witness :
    (["a_2019"].all (fun f => (find_file_config dlA.entries f).toOption.isSome) = true) ∧
    (update dlA [] okAll payAll ["a_2019"]).toOption.isSome = true :=
  update_lookup_never_fails dlA [] okAll payAll ["a_2019"] (by decide)

/-- C5 counterexample: `missing()` may legitimately enumerate the missing
set as `["b_2019", "a_2019"]` (Python set order is hash-derived), and
`update` then processes the files in exactly that order, which differs from
the ascending sort — the iteration order is neither deterministic nor
sorted. -/
theorem update_order_not_sorted_counterexample :
    validEnum dlAB [] ["b_2019", "a_2019"] ∧
    (update dlAB [] okAll payAll ["b_2019", "a_2019"]).map (fun r => r.executed) =
      .ok ["b_2019", "a_2019"] ∧
    ["b_2019", "a_2019"] ≠ sortStrings ["b_2019", "a_2019"] := by
  decide

/-- C5 (amended): for every valid `missing()` enumeration, `update`
processes exactly the enumerated missing filenames, in enumeration order
(not necessarily sorted), resolving each handler via the config lookup. -/
theorem update_processes_enumerated_missing (d : Downloader)
    (disk : List DiskFile) (ok : String → Bool)
    (payload : String → List Feature) (enum : List String)
    (henum : validEnum d disk enum) :
    (update d disk ok payload enum).map (fun r => r.executed) = .ok enum := by
  by_cases hc : check d disk = true
  · have := validEnum_nil_of_check d disk enum henum hc
    subst this
    unfold update
    rw [if_pos hc]
    rfl
  · unfold update
    rw [if_neg hc]
    obtain ⟨dataOut, heq⟩ := updateLoop_spec d.entries d.raw_directory ok payload
      enum _ (validEnum_handlerFor d disk enum henum)
    rw [heq]
    simp [Except.map]

/-- Witness for the amended C5 at a concrete state. -/
theorem update_processes_enumerated_missing_witness :
    (update dlAB [] okAll payAll ["b_2019", "a_2019"]).map (fun r => r.executed) =
      .ok ["b_2019", "a_2019"] :=
  update_processes_enumerated_missing dlAB [] okAll payAll ["b_2019", "a_2019"]
    (by decide)

/-- Rebuilding a string from its characters is the identity. -/
theorem strMk_toList (s : String) : String.mk s.toList = s := rfl

/-- A non-empty string has a non-empty character list. -/
theorem toList_ne_nil (s : String) (h : s ≠ "") : s.toList ≠ [] := by
  intro hnil
  apply h
  rcases s with ⟨data⟩
  simp only [String.toList] at hnil
  rw [hnil]

/-- `stemRevAux` on a reversed name whose scanned prefix has no dot: it
finds the dot and returns what follows (the reversed stem), provided that
is non-empty. -/
theorem stemRevAux_append (post : List Char) :
    ∀ (pre : List Char), '.' ∉ pre →
      stemRevAux (pre ++ '.' :: post) =
        if post.isEmpty then none else some post := by
  intro pre
  induction pre with
  | nil =>
    intro _
    simp [stemRevAux]
  | cons c cs ih =>
    intro h
    have hc : ¬ (c = '.') := fun hx => h (by rw [hx]; exact List.mem_cons_self _ _)
    simp only [List.cons_append, stemRevAux, if_neg hc]
    exact ih (fun hm => h (List.mem_cons_of_mem c hm))

/-- `Path(f"{n}.{ext}").stem = n` when `n` is non-empty and `ext` is a
non-empty, dot-free extension. -/
theorem pyStem_append (n ext : String) (hn : n ≠ "") (he : ext ≠ "")
    (hdot : '.' ∉ ext.toList) : pyStem (n ++ "." ++ ext) = n := by
  have htl : (n ++ "." ++ ext).toList = n.toList ++ '.' :: ext.toList := by
    show (n ++ "." ++ ext).data = n.data ++ '.' :: ext.data
    simp [String.data_append]
  unfold pyStem
  rw [htl, List.reverse_append, List.reverse_cons]
  cases hrev : ext.toList.reverse with
  | nil => exact absurd (List.reverse_eq_nil_iff.mp hrev) (toList_ne_nil ext he)
  | cons y ys =>
    have hymem : y ∈ ext.toList :=
      List.mem_reverse.mp (by rw [hrev]; exact List.mem_cons_self _ _)
    have hy : ¬ ((y :: (ys ++ '.' :: n.toList.reverse)).head? = some '.') := by
      intro hh
      exact hdot ((Option.some.inj hh) ▸ hymem)
    have hpre : '.' ∉ (y :: ys) := by
      intro hm
      exact hdot (List.mem_reverse.mp (by rw [hrev]; exact hm))
    simp only [List.cons_append, List.append_assoc, List.singleton_append,
      List.nil_append]
    rw [if_neg hy]
    have hsra := stemRevAux_append n.toList.reverse (y :: ys) hpre
    simp only [List.cons_append] at hsra
    rw [hsra]
    have hne : (n.toList.reverse).isEmpty = false := by
      cases hnl : n.toList.reverse with
      | nil => exact absurd (List.reverse_eq_nil_iff.mp hnl) (toList_ne_nil n hn)
      | cons a as => rfl
    rw [hne]
    simp only [Bool.false_eq_true, if_false]
    rw [List.reverse_reverse]
    exact strMk_toList n

/-- Filtering commutes with mapping when the predicate factors through the
map. -/
theorem map_filter_comm {α β : Type} (f : α → β) (p : β → Bool) (l : List α) :
    (l.map f).filter p = (l.filter (fun a => p (f a))).map f := by
  induction l with
  | nil => rfl
  | cons a as ih =>
    cases hp : p (f a) <;> simp [List.filter_cons, hp, ih]

/-- `existing_files`'s comprehension distributes over an appended store. -/
theorem existingRaw_append (d1 d2 : List DiskFile) :
    existingRaw (d1 ++ d2) = existingRaw d1 ++ existingRaw d2 := by
  simp [existingRaw, List.filter_append]

/-- Removing `old_data` keeps exactly the non-artifact files whose stem is
required. -/
theorem existingRaw_removal (d : Downloader) (disk : List DiskFile) :
    existingRaw (disk.filter (fun f => decide (f ∉ old_data d disk))) =
      (existingRaw disk).filter (fun s => decide (s ∈ required_files d)) := by
  unfold existingRaw
  rw [map_filter_comm]
  congr 1
  rw [List.filter_filter, List.filter_filter]
  apply List.filter_congr
  intro x hx
  have hmem : x ∈ old_data d disk ↔
      (x.stem ∉ required_files d ∧ dsStore x.pathStr = false) := by
    simp [old_data, List.mem_filter, hx]
  cases hds : dsStore x.pathStr with
  | true =>
    have hnot : x ∉ old_data d disk := fun hin => by
      have h2 := (hmem.mp hin).2
      rw [hds] at h2
      cases h2
    simp [hnot, hds]
  | false =>
    by_cases hreq : x.stem ∈ required_files d
    · have hnot : x ∉ old_data d disk := fun hin => (hmem.mp hin).1 hreq
      simp [hnot, hds, hreq]
    · have hin : x ∈ old_data d disk := hmem.mpr ⟨hreq, hds⟩
      simp [hin, hds, hreq]

/-- Under the idempotence hypotheses, the files written for `fs` carry
exactly the stems `fs` (in order) and are never OS artifacts. -/
theorem writesFor_props (entries : List PyHandler) (root : String)
    (ok : String → Bool)
    (hw : ∀ e ∈ entries, e.file.write_to_disk = true)
    (hext : ∀ e ∈ entries, e.file.file_ext ≠ "" ∧ '.' ∉ e.file.file_ext.toList)
    (hofn : ∀ e ∈ entries, e.output_filename ≠ "")
    (hds : ∀ e ∈ entries,
      dsStore (mkWrite root e.file.folder e.output_filename e.file.file_ext).pathStr = false) :
    ∀ (fs : List String),
      (∀ f ∈ fs, (handlerFor entries f).isSome = true) →
      (∀ f ∈ fs, ok f = true) →
      (writesFor entries root ok fs).map (fun w => w.stem) = fs ∧
      ∀ w ∈ writesFor entries root ok fs, dsStore w.pathStr = false := by
  intro fs
  induction fs with
  | nil =>
    intro _ _
    exact ⟨rfl, by intro w hw'; cases hw'⟩
  | cons f rest ih =>
    intro hsome hok
    obtain ⟨e, he⟩ :=
      Option.isSome_iff_exists.mp (hsome f (List.mem_cons_self f rest))
    obtain ⟨hmem, hname⟩ := handlerFor_mem_and_name entries f e he
    have hcond : (ok f && e.file.write_to_disk) = true := by
      rw [hok f (List.mem_cons_self f rest), hw e hmem]
      rfl
    obtain ⟨ih1, ih2⟩ := ih (fun g hg => hsome g (List.mem_cons_of_mem _ hg))
      (fun g hg => hok g (List.mem_cons_of_mem _ hg))
    have hsplit := writesFor_cons entries root ok f rest e he
    rw [if_pos hcond] at hsplit
    rw [hsplit]
    constructor
    · simp only [List.singleton_append, List.map_cons, ih1, List.cons.injEq]
      refine ⟨?_, trivial⟩
      show pyStem (e.output_filename ++ "." ++ e.file.file_ext) = f
      rw [pyStem_append e.output_filename e.file.file_ext (hofn e hmem)
        (hext e hmem).1 (hext e hmem).2]
      exact hname
    · intro w hwm
      rw [List.singleton_append] at hwm
      rcases List.mem_cons.mp hwm with hweq | hwrest
      · rw [hweq]
        exact hds e hmem
      · exact ih2 w hwrest

/-- The membership description of a valid `missing()` enumeration. -/
theorem validEnum_mem_iff (d : Downloader) (disk : List DiskFile)
    (enum : List String) (henum : validEnum d disk enum) :
    ∀ f, f ∈ enum ↔ (f ∈ requiredRaw d ∧ f ∉ existingRaw disk) := by
  intro f
  constructor
  · exact fun hf => validEnum_mem d disk enum henum f hf
  · intro ⟨hin, hout⟩
    have : f ∈ missingFinset d disk := Finset.mem_sdiff.mpr
      ⟨List.mem_toFinset.mpr ((mem_sortStrings _ f).mpr hin),
       fun hmem => hout ((mem_sortStrings _ f).mp (List.mem_toFinset.mp hmem))⟩
    rw [← henum.2] at this
    exact List.mem_toFinset.mp this

/-- C4 counterexample: a handler with `write_to_disk = False` fetches
successfully, but writes nothing; after the first `update` call `check` is
still `False`, and a second call fetches the same file again instead of
being a no-op. -/
theorem update_not_idempotent_without_write_to_disk :
    validEnum dlANoWrite [] ["a_2019"] ∧
    (update dlANoWrite [] okAll payAll ["a_2019"]).map
      (fun r => (r.status, check dlANoWrite r.disk)) = .ok (true, false) ∧
    ((update dlANoWrite [] okAll payAll ["a_2019"]).bind
      (fun r => update dlANoWrite r.disk okAll payAll ["a_2019"])).map
      (fun r => r.executed) = .ok ["a_2019"] := by
  decide

/-- C4 (amended): running `update` twice with no external change is
idempotent provided every handler writes its fetch to disk
(`write_to_disk = True`), every fetch succeeds, the required filenames and
on-disk stems are duplicate-free, and extensions/filenames are well-formed
(non-empty, dot-free extension, no `DS_Store` in the written paths): after
the first call `check()` is true and the aggregate status is success, and a
second call removes nothing, fetches nothing and returns success
immediately. -/
theorem update_idempotent_when_written (d : Downloader) (disk : List DiskFile)
    (ok : String → Bool) (payload : String → List Feature)
    (enum enum2 : List String) (r : UpdateRes)
    (henum : validEnum d disk enum)
    (hR : (requiredRaw d).Nodup)
    (hE : (existingRaw disk).Nodup)
    (hok : ∀ f ∈ enum, ok f = true)
    (hwrite : ∀ e ∈ d.entries, e.file.write_to_disk = true)
    (hext : ∀ e ∈ d.entries, e.file.file_ext ≠ "" ∧ '.' ∉ e.file.file_ext.toList)
    (hofn : ∀ e ∈ d.entries, e.output_filename ≠ "")
    (hds : ∀ e ∈ d.entries,
      dsStore (mkWrite d.raw_directory e.file.folder e.output_filename
        e.file.file_ext).pathStr = false)
    (hupd : update d disk ok payload enum = .ok r) :
    check d r.disk = true ∧ r.status = true ∧
    update d r.disk ok payload enum2 = .ok ⟨r.disk, [], true, [], []⟩ := by
  by_cases hc : check d disk = true
  · unfold update at hupd
    rw [if_pos hc] at hupd
    have hr := Except.ok.inj hupd
    subst hr
    refine ⟨hc, rfl, ?_⟩
    unfold update
    rw [if_pos hc]
  · have hsome := validEnum_handlerFor d disk enum henum
    unfold update at hupd
    rw [if_neg hc] at hupd
    dsimp only at hupd
    obtain ⟨dataOut, heq⟩ := updateLoop_spec d.entries d.raw_directory ok payload
      enum ⟨disk.filter (fun f => decide (f ∉ old_data d disk)), [], true,
            old_data d disk, []⟩ hsome
    rw [heq] at hupd
    have hr := Except.ok.inj hupd
    subst hr
    obtain ⟨hstems, hdsW⟩ := writesFor_props d.entries d.raw_directory ok
      hwrite hext hofn hds enum hsome hok
    have hEafter : existingRaw
        (disk.filter (fun f => decide (f ∉ old_data d disk)) ++
          writesFor d.entries d.raw_directory ok enum) =
        (existingRaw disk).filter (fun s => decide (s ∈ required_files d)) ++ enum := by
      rw [existingRaw_append, existingRaw_removal]
      congr 1
      unfold existingRaw
      rw [List.filter_eq_self.mpr (fun w hwm => by rw [hdsW w hwm]; rfl)]
      exact hstems
    have hmemiff := validEnum_mem_iff d disk enum henum
    have hperm : ((existingRaw disk).filter
        (fun s => decide (s ∈ required_files d)) ++ enum).Perm (requiredRaw d) := by
      have hnd1 : ((existingRaw disk).filter
          (fun s => decide (s ∈ required_files d)) ++ enum).Nodup := by
        refine (hE.filter _).append henum.1 ?_
        intro a ha1 ha2
        have haE : a ∈ existingRaw disk := (List.mem_filter.mp ha1).1
        exact ((hmemiff a).mp ha2).2 haE
      refine (List.perm_ext_iff_of_nodup hnd1 hR).mpr ?_
      intro a
      rw [List.mem_append, List.mem_filter]
      constructor
      · rintro (⟨haE, hreq⟩ | haenum)
        · exact (mem_sortStrings _ a).mp (of_decide_eq_true hreq)
        · exact ((hmemiff a).mp haenum).1
      · intro haR
        by_cases haE : a ∈ existingRaw disk
        · exact Or.inl ⟨haE, decide_eq_true ((mem_sortStrings _ a).mpr haR)⟩
        · exact Or.inr ((hmemiff a).mpr ⟨haR, haE⟩)
    have hcheck : check d
        (disk.filter (fun f => decide (f ∉ old_data d disk)) ++
          writesFor d.entries d.raw_directory ok enum) = true := by
      unfold check
      rw [decide_eq_true_eq]
      show sortStrings (requiredRaw d) = sortStrings (existingRaw _)
      rw [hEafter]
      exact sortStrings_eq_of_perm _ _ hperm.symm
    refine ⟨hcheck, ?_, ?_⟩
    · show (true && enum.all ok) = true
      rw [Bool.true_and]
      exact List.all_eq_true.mpr (fun f hf => hok f hf)
    · unfold update
      rw [if_pos hcheck]

/-- Witness: one writing handler, empty store — the first `update` writes
`a_2019`, `check` then holds and the second call is a no-op. -/
theorem update_idempotent_when_written_witness :
    check dlA resW.disk = true ∧ resW.status = true ∧
    update dlA resW.disk okAll payAll ["a_2019"] = .ok ⟨resW.disk, [], true, [], []⟩ :=
  update_idempotent_when_written dlA [] okAll payAll ["a_2019"] ["a_2019"] resW
    (by decide) (by decide) (by decide) (by decide) (by decide) (by decide)
    (by decide) (by decide) (by decide)

end Download
